import Mathlib

/-!
Shallow embedding of the buzzer-arbitrated quiz engine in `QuizGame.py`.

The Python program keeps its state in the `GamePage` widget; we embed that
mutable state as the structure `GameState` and every handler as a pure state
transformer.  Interactions with the outside world are made explicit
parameters:
* the question store (`questions.json`) is a parameter of type
  `Option (List Question)` — `none` stands for an unreadable or non-list
  store, `some l` for a stored list `l`;
* one hardware poll result is a value of `PollResult`.

Pure UI actions (label colours, message boxes, blinking) are not part of the
state; UI facts that feed back into control flow (answer-button enabled
flags, button texts, the question label, the game-over overlay, the poll
timer, the current page of the stacked widget) are modelled as fields.
-/

/-- One stored question record, as in `questions.json`. -/
structure Question where
  question : String
  answers : List String
  correct : Nat
  enabled : Bool
deriving DecidableEq

instance : Inhabited Question :=
  ⟨{ question := "", answers := [], correct := 0, enabled := false }⟩

/-- `self.num_players = 4` in `GamePage.__init__`. -/
def num_players : Nat := 4

/-- The mutable state of `GamePage` (plus the stacked-widget page index).
`current_player` is the floor holder (`None` in Python when nobody holds the
floor); `active_players` is the per-round eligibility vector (`False` means
locked out this round); `wrong_players` embeds the Python set of players who
answered wrong this round (order irrelevant: the code only tests emptiness,
inserts and clears). -/
structure GameState where
  questions : List Question
  current_q_index : Int
  scores : List Int
  active_players : List Bool
  wrong_players : List Nat
  current_player : Option Nat
  buttons_enabled : List Bool
  button_texts : List String
  q_label : String
  overlay_visible : Bool
  poll_timer_active : Bool
  final_winner_indices : List Nat
  page : Nat
deriving DecidableEq

/-- `load_questions()`: reads the store; a non-list or short (< 13) or
unreadable store is replaced by a generated default bank which is written
back.  The second component records whether the default was written back to
the store. -/
def default_question (i : Nat) : Question :=
  { question := "Question " ++ toString (i + 1),
    answers := ["Answer A", "Answer B", "Answer C", "Answer D"],
    correct := 0,
    enabled := false }

/-- The generated default bank of 13 records. -/
def default_questions : List Question := (List.range 13).map default_question

/-- `load_questions` in `QuizGame.py` (lines 15–33).  The source only checks
`isinstance(data, list)` and `len(data) >= 13`; record contents are not
inspected. -/
def load_questions (store : Option (List Question)) : List Question × Bool :=
  match store with
  | none => (default_questions, true)
  | some data =>
      if data.length < 13 then (default_questions, true) else (data, false)

/-- `GamePage.prepare_game` (lines 243–257): re-reads the store, snapshots
the enabled subset, resets cursor, scores, eligibility, lockout set and
floor.  (The "no enabled questions" label set on line 248 is immediately
overwritten by line 257, so the final label is always the same.) -/
def prepare_game (store : Option (List Question)) (s : GameState) : GameState :=
  { s with
    questions := (load_questions store).1.filter (fun q => q.enabled),
    current_q_index := -1,
    scores := List.replicate num_players 0,
    active_players := List.replicate num_players true,
    wrong_players := [],
    current_player := none,
    q_label := "Press any buzzer to start" }

/-- `GamePage.show_winner_effect` (lines 372–413): stops the poll timer and
shows the game-over overlay (blinking is pure UI). -/
def show_winner_effect (s : GameState) : GameState :=
  { s with poll_timer_active := false, overlay_visible := true }

/-- Python's `max` on the (nonempty) score list; the `[]` case is
unreachable since the roster has 4 players. -/
def list_max : List Int → Int
  | [] => 0
  | x :: xs => xs.foldl max x

/-- `GamePage.end_game` (lines 351–370).  Note that line 353 re-reads the
question store (`load_questions()`), and that the all-zero-score branch
returns to the menu via `prepare_game` without computing winners. -/
def end_game (store : Option (List Question)) (s : GameState) : GameState :=
  if ((load_questions store).1.any (fun q => q.enabled)) = false then
    { prepare_game store s with page := 0 }
  else if (s.scores.all (fun x => x = 0)) = true then
    { prepare_game store s with page := 0 }
  else
    let max_score := list_max s.scores
    let winners := (List.range s.scores.length).filter
      (fun i => s.scores.getD i 0 = max_score)
    show_winner_effect { s with final_winner_indices := winners }

/-- The `while` loop of `next_question` (lines 295–296): starting at index
`i`, skip questions whose text is blank (falsy).  Scans the suffix
`qs.drop i` structurally, advancing the index in lockstep. -/
def skip_blank_go : List Question → Nat → Nat
  | [], i => i
  | q :: rest, i => if q.question = "" then skip_blank_go rest (i + 1) else i

def skip_blank (qs : List Question) (i : Nat) : Nat :=
  skip_blank_go (qs.drop i) i

/-- `GamePage.next_question` (lines 292–304).  The cursor is incremented,
blank questions are skipped, and either the next question is displayed (all
four answer buttons enabled) or, past the end, `end_game` runs with the
advanced cursor.  In the source the cursor is always ≥ -1 when this runs,
so `Int.toNat` is exact.  (`q.get("answers", [..])[i]` is embedded as
`getD i ""`; stored records always carry 4 answers.) -/
def next_question (store : Option (List Question)) (s : GameState) : GameState :=
  let idx := skip_blank s.questions ((s.current_q_index + 1).toNat)
  if s.questions.length ≤ idx then
    end_game store { s with current_q_index := (idx : Int) }
  else
    let q := s.questions.getD idx default
    { s with
      current_q_index := (idx : Int),
      q_label := q.question,
      button_texts := (List.range 4).map (fun i => q.answers.getD i ""),
      buttons_enabled := List.replicate 4 true }

/-- `GamePage.reset_round_visuals` (lines 342–349): clears lockouts and the
wrong-answer set and disables the answer buttons (labels are pure UI). -/
def reset_round_visuals (s : GameState) : GameState :=
  { s with
    active_players := List.replicate num_players true,
    wrong_players := [],
    buttons_enabled := List.replicate num_players false }

/-- `GamePage.player_answer` (lines 310–340).  A no-op without a floor
holder.  Correct answer: +100 if the wrong-answer set is empty, else +50,
then round visuals reset, floor released, buttons disabled, and the next
question auto-loads.  Wrong answer: the holder joins the wrong-answer set
and is locked out, floor released, buttons disabled; if nobody remains
eligible the round resets and the next question auto-loads. -/
def player_answer (store : Option (List Question)) (answer_idx : Nat)
    (s : GameState) : GameState :=
  match s.current_player with
  | none => s
  | some player =>
      let q := s.questions.getD s.current_q_index.toNat default
      if answer_idx = q.correct then
        let gain : Int := if s.wrong_players.length = 0 then 100 else 50
        let s1 := { s with
          scores := s.scores.set player (s.scores.getD player 0 + gain) }
        let s2 := reset_round_visuals s1
        let s3 := { s2 with
          current_player := none,
          buttons_enabled := List.replicate num_players false }
        next_question store s3
      else
        let s1 := { s with
          wrong_players := s.wrong_players.insert player,
          active_players := s.active_players.set player false,
          current_player := none,
          buttons_enabled := List.replicate num_players false }
        if s1.active_players.all (fun a => !a) then
          next_question store (reset_round_visuals s1)
        else s1

/-- Outcome of one hardware poll (`self.client.read_discrete_inputs`):
a raised exception, an error/absent response (`rr is None or rr.isError()`),
a missing `bits` attribute, or a bit vector.  An empty bit vector is falsy
in Python and is rejected by the `if not bits` guard. -/
inductive PollResult where
  | exn
  | errorResponse
  | missingBits
  | bits (bs : List Bool)
deriving DecidableEq

/-- The scan loop of `poll_buzzers` (lines 279–290): first index `i` (in
enumeration order 0,1,2,…) with `bits[i]` pressed and `active_players[i]`
still eligible. -/
def first_eligible_go : List Bool → Nat → List Bool → Option Nat
  | [], _, _ => none
  | b :: rest, i, active =>
      if b && active.getD i false then some i
      else first_eligible_go rest (i + 1) active

def first_eligible (bits active : List Bool) : Option Nat :=
  first_eligible_go bits 0 active

/-- Body of the winning branch of `poll_buzzers` (lines 281–290): grant the
floor to `i`, enable the answer buttons, and — since the buttons were just
enabled, the `all(not btn.isEnabled())` disjunct is false — load the next
question exactly when no question has been loaded yet
(`current_q_index == -1`). -/
def grant_floor (store : Option (List Question)) (i : Nat) (s : GameState) :
    GameState :=
  let s1 := { s with
    current_player := some i,
    buttons_enabled := List.replicate num_players true }
  if s1.current_q_index = -1 ∨ (s1.buttons_enabled.all (fun b => !b)) = true then
    next_question store s1
  else s1

/-- `GamePage.poll_buzzers` (lines 267–290): returns unchanged while a
floor is held, on a transport exception, on an error/absent response, on
missing or empty bit data; otherwise grants the floor to the first pressed
eligible index, if any. -/
def poll_buzzers (store : Option (List Question)) (pr : PollResult)
    (s : GameState) : GameState :=
  if s.current_player.isSome then s
  else
    match pr with
    | .exn => s
    | .errorResponse => s
    | .missingBits => s
    | .bits bs =>
        if bs.isEmpty then s
        else
          match first_eligible bs s.active_players with
          | none => s
          | some i => grant_floor store i s

/-- `GamePage.return_to_menu_from_overlay` (lines 450–457). -/
def return_to_menu_from_overlay (store : Option (List Question))
    (s : GameState) : GameState :=
  let s1 := prepare_game store { s with overlay_visible := false }
  { s1 with page := 0, poll_timer_active := true }

/-- Keyboard input relevant to `keyPressEvent`: Return/Enter, or any other
key (ignored). -/
inductive Key where
  | enter
  | other
deriving DecidableEq

/-- `GamePage.keyPressEvent` (lines 459–468): Enter returns to the menu
when the game-over overlay is visible; otherwise it releases the floor,
disables the answer buttons and resets the round visuals. -/
def keyPressEvent (store : Option (List Question)) (k : Key) (s : GameState) :
    GameState :=
  match k with
  | .other => s
  | .enter =>
      if s.overlay_visible then return_to_menu_from_overlay store s
      else
        reset_round_visuals
          { s with
            current_player := none,
            buttons_enabled := List.replicate num_players false }

/-- A concrete in-game base state used by the witnesses below. -/
def base_state : GameState :=
  { questions := [],
    current_q_index := -1,
    scores := [0, 0, 0, 0],
    active_players := [true, true, true, true],
    wrong_players := [],
    current_player := none,
    buttons_enabled := [false, false, false, false],
    button_texts := ["", "", "", ""],
    q_label := "Press any buzzer to start",
    overlay_visible := false,
    poll_timer_active := true,
    final_winner_indices := [],
    page := 2 }

/-- A concrete enabled question used by concrete test states. -/
def q_live : Question :=
  { question := "Capital of France?",
    answers := ["Paris", "Rome", "Oslo", "Bern"],
    correct := 0,
    enabled := true }

/-- A well-formed store of 13 enabled questions. -/
def store13 : Option (List Question) := some (List.replicate 13 q_live)

/-- The same store after a mid-session edit disabling every question. -/
def store13_off : Option (List Question) :=
  some (List.replicate 13 { q_live with enabled := false })

/-- A question whose four options are all blank (host-adjudicated in the
spec's terms). -/
def q_blank_options : Question :=
  { question := "Host adjudicated",
    answers := ["", "", "", ""],
    correct := 0,
    enabled := true }

/-- A second enabled question, used to observe auto-advance. -/
def q_two : Question :=
  { question := "Second question",
    answers := ["w", "x", "y", "z"],
    correct := 1,
    enabled := true }

/-- A round in which players 0–2 are already locked out and player 3 holds
the floor on question 0 of a two-question session. -/
def s_exhaust : GameState :=
  { base_state with
    questions := [q_live, q_two],
    current_q_index := 0,
    current_player := some 3,
    active_players := [false, false, false, true],
    wrong_players := [0, 1, 2],
    buttons_enabled := [true, true, true, true] }

example : load_questions store13 = ((List.replicate 13 q_live), false) := by decide
example : first_eligible [false, true, true, false] [true, false, true, true] = some 2 := by decide
example : skip_blank [q_live] 0 = 0 := by decide

/-! ### Specification of the buzz scan -/

lemma first_eligible_go_some_iff (bits : List Bool) :
    ∀ (active : List Bool) (i j : Nat),
      first_eligible_go bits i active = some j ↔
        ∃ d, j = i + d ∧ d < bits.length ∧ bits.getD d false = true ∧
          active.getD (i + d) false = true ∧
          ∀ e < d, ¬(bits.getD e false = true ∧ active.getD (i + e) false = true) := by
  induction bits with
  | nil =>
      intro active i j
      simp [first_eligible_go]
  | cons b rest ih =>
      intro active i j
      simp only [first_eligible_go]
      by_cases h : (b && active.getD i false) = true
      · obtain ⟨hb, ha⟩ : b = true ∧ active.getD i false = true := by simpa using h
        rw [if_pos h]
        simp only [Option.some.injEq]
        constructor
        · rintro rfl
          exact ⟨0, by omega, by simp, by simpa using hb, by simpa using ha,
            fun e he => absurd he (Nat.not_lt_zero e)⟩
        · rintro ⟨d, rfl, hd, hbit, hact, hmin⟩
          rcases Nat.eq_zero_or_pos d with rfl | hpos
          · omega
          · exact absurd ⟨by simpa using hb, by simpa using ha⟩ (hmin 0 hpos)
      · rw [if_neg h]
        rw [ih active (i + 1) j]
        constructor
        · rintro ⟨d, rfl, hd, hbit, hact, hmin⟩
          refine ⟨d + 1, by omega, by simpa using Nat.succ_lt_succ hd,
            by simpa using hbit, ?_, ?_⟩
          · rw [show i + (d + 1) = i + 1 + d by omega]; exact hact
          · intro e he
            match e with
            | 0 =>
                rintro ⟨hb0, ha0⟩
                simp only [List.getD_cons_zero] at hb0
                rw [show i + 0 = i by omega] at ha0
                exact h (by rw [hb0, ha0]; rfl)
            | e + 1 =>
                rintro ⟨hbe, hae⟩
                refine hmin e (by omega) ⟨by simpa using hbe, ?_⟩
                rw [show i + 1 + e = i + (e + 1) by omega]; exact hae
        · rintro ⟨d, rfl, hd, hbit, hact, hmin⟩
          match d with
          | 0 =>
              exfalso
              simp only [List.getD_cons_zero] at hbit
              rw [show i + 0 = i by omega] at hact
              exact h (by rw [hbit, hact]; rfl)
          | d + 1 =>
              refine ⟨d, by omega, by simp only [List.length_cons] at hd; omega,
                by simpa using hbit, ?_, ?_⟩
              · rw [show i + 1 + d = i + (d + 1) by omega]; exact hact
              · intro e he
                rintro ⟨hbe, hae⟩
                refine hmin (e + 1) (by omega) ⟨by simpa using hbe, ?_⟩
                rw [show i + (e + 1) = i + 1 + e by omega]; exact hae

lemma first_eligible_go_none_iff (bits : List Bool) :
    ∀ (active : List Bool) (i : Nat),
      first_eligible_go bits i active = none ↔
        ∀ d < bits.length,
          ¬(bits.getD d false = true ∧ active.getD (i + d) false = true) := by
  induction bits with
  | nil => intro active i; simp [first_eligible_go]
  | cons b rest ih =>
      intro active i
      simp only [first_eligible_go]
      by_cases h : (b && active.getD i false) = true
      · obtain ⟨hb, ha⟩ : b = true ∧ active.getD i false = true := by simpa using h
        rw [if_pos h]
        constructor
        · intro hfalse; cases hfalse
        · intro hall
          exact absurd
            ⟨by simpa using hb, by simpa [show i + 0 = i by omega] using ha⟩
            (hall 0 (Nat.succ_pos _))
      · rw [if_neg h]
        rw [ih active (i + 1)]
        constructor
        · intro h1 d hd
          match d with
          | 0 =>
              rintro ⟨hb0, ha0⟩
              simp only [List.getD_cons_zero] at hb0
              rw [show i + 0 = i by omega] at ha0
              exact h (by rw [hb0, ha0]; rfl)
          | d + 1 =>
              rintro ⟨hbe, hae⟩
              refine h1 d (by simp only [List.length_cons] at hd; omega)
                ⟨by simpa using hbe, ?_⟩
              rw [show i + 1 + d = i + (d + 1) by omega]; exact hae
        · intro h1 d hd
          rintro ⟨hbe, hae⟩
          refine h1 (d + 1) (by simp only [List.length_cons]; omega)
            ⟨by simpa using hbe, ?_⟩
          rw [show i + (d + 1) = i + 1 + d by omega]; exact hae

/-! ### Claims -/

/-- C1: with a roster of N = 4, buzz arbitration (the scan loop of
`poll_buzzers`) selects exactly the lowest index `i` with `bits[i]` pressed
and contestant `i` still eligible (`active_players[i] = true`, i.e. not
locked out), and selects no one exactly when no such index exists.  Being a
pure function of the bit vector and the eligibility vector, the result
cannot depend on call order or arrival time. -/
theorem C1_arbitration_lowest_eligible (bits active : List Bool)
    (hb : bits.length = 4) :
    (∀ j, first_eligible bits active = some j ↔
        (j < 4 ∧ bits.getD j false = true ∧ active.getD j false = true ∧
         ∀ k < j, ¬(bits.getD k false = true ∧ active.getD k false = true))) ∧
    (first_eligible bits active = none ↔
        ∀ j < 4, ¬(bits.getD j false = true ∧ active.getD j false = true)) := by
  constructor
  · intro j
    rw [first_eligible, first_eligible_go_some_iff bits active 0 j]
    constructor
    · rintro ⟨d, rfl, hd, hbit, hact, hmin⟩
      refine ⟨by omega, by simpa using hbit, by simpa using hact, ?_⟩
      intro k hk hcontra
      exact hmin k (by omega) ⟨hcontra.1, by simpa using hcontra.2⟩
    · rintro ⟨hj, hbit, hact, hmin⟩
      exact ⟨j, by omega, by omega, hbit, by simpa using hact,
        fun e he hc => hmin e he ⟨hc.1, by simpa using hc.2⟩⟩
  · rw [first_eligible, first_eligible_go_none_iff bits active 0]
    constructor
    · intro h1 j hj hc
      exact h1 j (by omega) ⟨hc.1, by simpa using hc.2⟩
    · intro h1 d hd hc
      exact h1 d (by omega) ⟨hc.1, by simpa using hc.2⟩

theorem C1_arbitration_lowest_eligible_witness :
    first_eligible [false, true, true, false] [true, false, true, true] = some 2 :=
  ((C1_arbitration_lowest_eligible [false, true, true, false]
      [true, false, true, true] rfl).1 2).mpr (by decide)

/-- C2: `current_player : Option Nat` holds at most one floor holder by
construction (second conjunct), and while some contestant holds the floor a
polling step is a no-op: `poll_buzzers` returns on its first line when
`current_player` is set, leaving the whole state unchanged whatever the
poll produced. -/
theorem C2_floor_exclusive (store : Option (List Question)) (pr : PollResult)
    (s : GameState) (c : Nat) (h : s.current_player = some c) :
    poll_buzzers store pr s = s ∧ ∀ d, s.current_player = some d → d = c := by
  refine ⟨?_, ?_⟩
  · simp [poll_buzzers, h]
  · intro d hd
    rw [h] at hd
    exact (Option.some.inj hd).symm

theorem C2_floor_exclusive_witness :
    poll_buzzers none (.bits [true, true, true, true])
        { base_state with current_player := some 1 }
      = { base_state with current_player := some 1 } :=
  (C2_floor_exclusive none (.bits [true, true, true, true])
    { base_state with current_player := some 1 } 1 rfl).1

/-- C8: a poll that fails — transport exception, error or absent response,
missing `bits` attribute, or empty (falsy) bit data — leaves the entire
game state unchanged: round state, floor holder, lockouts and scores; it is
never read as a press or as a release of all inputs. -/
theorem C8_failed_poll_no_effect (store : Option (List Question))
    (s : GameState) (pr : PollResult)
    (h : pr = .exn ∨ pr = .errorResponse ∨ pr = .missingBits ∨ pr = .bits []) :
    poll_buzzers store pr s = s := by
  rcases h with h | h | h | h <;> subst h <;> simp [poll_buzzers]

theorem C8_failed_poll_no_effect_witness :
    poll_buzzers none .exn base_state = base_state :=
  C8_failed_poll_no_effect none base_state .exn (Or.inl rfl)

/-! ### Score preservation through the auto-advance chain -/

lemma all_zero_eq_replicate (l : List Int) (h4 : l.length = num_players)
    (hz : l.all (fun x => x = 0) = true) : l = List.replicate num_players 0 :=
  List.eq_replicate_iff.mpr
    ⟨h4, fun b hb => by simpa using List.all_eq_true.mp hz b hb⟩

lemma end_game_scores (store : Option (List Question)) (s : GameState)
    (hstore : (load_questions store).1.any (fun q => q.enabled) = true)
    (hz : s.scores.all (fun x => x = 0) = true →
      s.scores = List.replicate num_players 0) :
    (end_game store s).scores = s.scores := by
  unfold end_game
  rw [if_neg (by rw [hstore]; simp)]
  by_cases hzz : (s.scores.all (fun x => x = 0)) = true
  · rw [if_pos hzz]
    simpa [prepare_game] using (hz hzz).symm
  · rw [if_neg hzz]
    rfl

lemma next_question_scores (store : Option (List Question)) (s : GameState)
    (hstore : (load_questions store).1.any (fun q => q.enabled) = true)
    (hz : s.scores.all (fun x => x = 0) = true →
      s.scores = List.replicate num_players 0) :
    (next_question store s).scores = s.scores := by
  simp only [next_question]
  by_cases hle :
      s.questions.length ≤ skip_blank s.questions ((s.current_q_index + 1).toNat)
  · rw [if_pos hle]
    exact end_game_scores store _ hstore hz
  · rw [if_neg hle]

/-- C3: with a floor holder `c` (roster position `c < 4`, nonnegative score
vector of length 4, and a store still holding an enabled question),
submitting the correct option of the current question adds exactly 100 to
`c`'s score when the round's wrong-answer set is empty and exactly 50 when
it is non-empty — however many wrong answers preceded — and no other score
changes (`List.set` at `c`); submitting any wrong option leaves every
contestant's score unchanged. -/
theorem C3_two_tier_scoring (store : Option (List Question)) (s : GameState)
    (c : Nat) (hc : s.current_player = some c) (hc4 : c < num_players)
    (hlen : s.scores.length = num_players)
    (hnn : ∀ x ∈ s.scores, 0 ≤ x)
    (hstore : (load_questions store).1.any (fun q => q.enabled) = true) :
    ((player_answer store
        (s.questions.getD s.current_q_index.toNat default).correct s).scores
      = s.scores.set c (s.scores.getD c 0 +
          (if s.wrong_players.length = 0 then 100 else 50))) ∧
    (∀ idx, idx ≠ (s.questions.getD s.current_q_index.toNat default).correct →
      (player_answer store idx s).scores = s.scores) := by
  have hset_len : ∀ (v : Int), (s.scores.set c v).length = num_players := by
    intro v; rw [List.length_set]; exact hlen
  constructor
  · simp only [player_answer, hc, if_pos rfl]
    set gain : Int := if s.wrong_players.length = 0 then 100 else 50 with hgain
    have hgain_pos : 0 < gain := by
      rw [hgain]; by_cases h0 : s.wrong_players.length = 0 <;> simp [h0]
    have hvpos : 0 < s.scores.getD c 0 + gain := by
      have : 0 ≤ s.scores.getD c 0 := by
        rw [List.getD_eq_getElem s.scores 0 (by omega)]
        exact hnn _ (List.getElem_mem _)
      omega
    refine next_question_scores store _ hstore ?_
    intro hall
    exfalso
    have hcl : c < (s.scores.set c (s.scores.getD c 0 + gain)).length := by
      rw [hset_len]; exact hc4
    have := List.all_eq_true.mp hall _ (List.getElem_mem hcl)
    rw [List.getElem_set_self hcl] at this
    simp only [decide_eq_true_eq] at this
    omega
  · intro idx hidx
    simp only [player_answer, hc, if_neg hidx]
    by_cases hall :
        ((s.active_players.set c false).all (fun a => !a)) = true
    · rw [if_pos hall]
      refine next_question_scores store _ hstore ?_
      intro hz
      exact all_zero_eq_replicate s.scores hlen hz
    · rw [if_neg hall]

theorem C3_two_tier_scoring_witness :
    (player_answer store13 0
        { base_state with
          questions := [q_live], current_q_index := 0,
          current_player := some 1 }).scores = [0, 100, 0, 0] := by
  have h := (C3_two_tier_scoring store13
    { base_state with
      questions := [q_live], current_q_index := 0, current_player := some 1 }
    1 rfl (by decide) rfl (by decide) (by decide)).1
  rw [show ((({ base_state with
      questions := [q_live], current_q_index := 0,
      current_player := some 1 } : GameState).questions.getD
        (0 : Int).toNat default).correct) = 0 from rfl] at h
  rw [h]
  decide

/-! ### The list maximum used by end_game -/

lemma foldl_max_init_le (xs : List Int) : ∀ a : Int, a ≤ xs.foldl max a := by
  induction xs with
  | nil => intro a; simp
  | cons x xs ih =>
      intro a
      simp only [List.foldl_cons]
      exact le_trans (le_max_left a x) (ih (max a x))

lemma foldl_max_mem_le (xs : List Int) :
    ∀ (a y : Int), y ∈ xs → y ≤ xs.foldl max a := by
  induction xs with
  | nil => intro a y hy; cases hy
  | cons x xs ih =>
      intro a y hy
      rcases List.mem_cons.mp hy with rfl | hy
      · simp only [List.foldl_cons]
        exact le_trans (le_max_right a y) (foldl_max_init_le xs (max a y))
      · simp only [List.foldl_cons]
        exact ih (max a x) y hy

lemma foldl_max_cases (xs : List Int) :
    ∀ a : Int, xs.foldl max a = a ∨ xs.foldl max a ∈ xs := by
  induction xs with
  | nil => intro a; left; rfl
  | cons x xs ih =>
      intro a
      simp only [List.foldl_cons]
      rcases ih (max a x) with h | h
      · rcases max_cases a x with ⟨h1, _⟩ | ⟨h1, _⟩
        · left; rw [h, h1]
        · right; rw [h, h1]; exact List.mem_cons_self x xs
      · right; exact List.mem_cons_of_mem x h

lemma list_max_mem (l : List Int) (hne : l ≠ []) : list_max l ∈ l := by
  match l with
  | [] => exact absurd rfl hne
  | x :: xs =>
      rcases foldl_max_cases xs x with h | h
      · show xs.foldl max x ∈ x :: xs
        rw [h]; exact List.mem_cons_self _ _
      · exact List.mem_cons_of_mem x h

lemma list_max_ge (l : List Int) (y : Int) (hy : y ∈ l) : y ≤ list_max l := by
  match l with
  | [] => cases hy
  | x :: xs =>
      rcases List.mem_cons.mp hy with rfl | hy
      · exact foldl_max_init_le xs y
      · exact foldl_max_mem_le xs x y hy

/-- The non-terminal branch of `next_question` spelled out. -/
lemma next_question_of_lt (store : Option (List Question)) (s : GameState)
    (h : skip_blank s.questions ((s.current_q_index + 1).toNat) <
      s.questions.length) :
    next_question store s =
      { s with
        current_q_index :=
          (skip_blank s.questions ((s.current_q_index + 1).toNat) : Int),
        q_label :=
          (s.questions.getD
            (skip_blank s.questions ((s.current_q_index + 1).toNat))
            default).question,
        button_texts := (List.range 4).map (fun i =>
          (s.questions.getD
            (skip_blank s.questions ((s.current_q_index + 1).toNat))
            default).answers.getD i ""),
        buttons_enabled := List.replicate 4 true } := by
  simp only [next_question]
  rw [if_neg (Nat.not_le.mpr h)]

/-- C4 counterexample: with every score 0 (and the store still holding
enabled questions), `end_game` does not compute a winner set at all — it
shows a message and returns to the menu, leaving `final_winner_indices`
empty rather than the all-contestant argmax set `[0, 1, 2, 3]` the claim
requires, and never showing the game-over (winner) overlay. -/
theorem C4_counterexample :
    (end_game store13 base_state).final_winner_indices ≠ [0, 1, 2, 3] ∧
    (end_game store13 base_state).overlay_visible = false ∧
    (end_game store13 base_state).page = 0 := by decide

/-- C4 (amended): when at least one score is nonzero (and the store still
has an enabled question), ending the game shows the game-over overlay and
reports exactly the contestants whose score equals the maximum (ties give
several winners), leaving scores unchanged; but when every score is 0 the
code skips winner computation entirely and resets to the menu via
`prepare_game`. -/
theorem C4_winners_argmax (store : Option (List Question)) (s : GameState)
    (hlen : s.scores.length = num_players)
    (hstore : (load_questions store).1.any (fun q => q.enabled) = true) :
    ((s.scores.all (fun x => x = 0)) = false →
      ∃ m, m ∈ s.scores ∧ (∀ x ∈ s.scores, x ≤ m) ∧
        (∀ i, i ∈ (end_game store s).final_winner_indices ↔
          (i < num_players ∧ s.scores.getD i 0 = m)) ∧
        (end_game store s).overlay_visible = true ∧
        (end_game store s).scores = s.scores) ∧
    ((s.scores.all (fun x => x = 0)) = true →
      end_game store s = { prepare_game store s with page := 0 }) := by
  constructor
  · intro hnz
    have hend : end_game store s =
        show_winner_effect
          { s with final_winner_indices :=
              ((List.range s.scores.length).filter
                (fun i => s.scores.getD i 0 = list_max s.scores)) } := by
      unfold end_game
      rw [if_neg (by rw [hstore]; simp), if_neg (by rw [hnz]; simp)]
    have hne : s.scores ≠ [] := by
      intro hnil
      rw [hnil] at hlen
      simp [num_players] at hlen
    refine ⟨list_max s.scores, list_max_mem s.scores hne,
      fun x hx => list_max_ge s.scores x hx, ?_, ?_, ?_⟩
    · intro i
      rw [hend]
      show i ∈ ((List.range s.scores.length).filter
          (fun i => s.scores.getD i 0 = list_max s.scores)) ↔ _
      rw [List.mem_filter, List.mem_range, hlen]
      simp only [decide_eq_true_eq]
    · rw [hend]; rfl
    · rw [hend]; rfl
  · intro hz
    unfold end_game
    rw [if_neg (by rw [hstore]; simp), if_pos hz]

theorem C4_winners_argmax_witness :
    (end_game store13
      { base_state with scores := [100, 0, 100, 0] }).overlay_visible = true := by
  obtain ⟨m, hmem, hub, hiff, hov, hsc⟩ :=
    (C4_winners_argmax store13 { base_state with scores := [100, 0, 100, 0] }
      (by decide) (by decide)).1 (by decide)
  exact hov

/-- C5 counterexample: `end_game` re-reads the question store (line 353),
so two runs with identical in-session state but stores that differ only in
a post-start mutation (here: every question disabled mid-session) end
differently — one computes winners and shows the overlay, the other resets
to the menu.  This refutes "no operation of the running session re-reads
the question store". -/
theorem C5_counterexample :
    end_game store13
        { base_state with
          questions := [q_live], current_q_index := 1, scores := [100, 0, 0, 0] }
      ≠ end_game store13_off
        { base_state with
          questions := [q_live], current_q_index := 1, scores := [100, 0, 0, 0] } := by
  decide

/-- C5 (amended): mid-session question advance reads only the snapshot:
whenever another (non-blank) question remains, `next_question` — the only
way questions reach the screen — is independent of the store contents.
Only the end-of-game path (`end_game`, and `prepare_game` on restart)
re-reads the store. -/
theorem C5_snapshot_mid_session (store1 store2 : Option (List Question))
    (s : GameState)
    (h : skip_blank s.questions ((s.current_q_index + 1).toNat) <
      s.questions.length) :
    next_question store1 s = next_question store2 s := by
  rw [next_question_of_lt store1 s h, next_question_of_lt store2 s h]

theorem C5_snapshot_mid_session_witness :
    next_question store13 { base_state with questions := [q_live] } =
      next_question store13_off { base_state with questions := [q_live] } :=
  C5_snapshot_mid_session store13 store13_off
    { base_state with questions := [q_live] } (by decide)

/-- C6 counterexample: the program has no manual-winner mode.  A question
whose four options are all blank is loaded like any other: the next poll
with a pressed eligible buzzer still grants the floor (here to contestant
0), and the four (blank) answer buttons are enabled for submission —
refuting "buzz arbitration is disabled" and "only an explicit
declare-manual-winner command resolves the round". -/
theorem C6_counterexample :
    (poll_buzzers none (.bits [true, false, false, false])
        { base_state with questions := [q_blank_options] }).current_player
      = some 0 ∧
    (poll_buzzers none (.bits [true, false, false, false])
        { base_state with questions := [q_blank_options] }).buttons_enabled
      = List.replicate 4 true := by decide

/-- C6 (amended): loading a question with zero non-blank options behaves
exactly like loading any other question: all four answer buttons are
enabled (blank labels included) and buzz arbitration stays active — a poll
whose scan selects contestant `i` grants `i` the floor. -/
theorem C6_blank_options_no_manual_mode (store : Option (List Question))
    (s : GameState) (bits : List Bool) (i : Nat)
    (hq : ((s.questions.getD
        (skip_blank s.questions ((s.current_q_index + 1).toNat))
        default).answers.all (fun a => a = "")) = true)
    (hnext : skip_blank s.questions ((s.current_q_index + 1).toNat) <
      s.questions.length)
    (hcp : s.current_player = none)
    (hfe : first_eligible bits (next_question store s).active_players = some i) :
    (next_question store s).buttons_enabled = List.replicate 4 true ∧
    (poll_buzzers store (.bits bits) (next_question store s)).current_player
      = some i := by
  rw [next_question_of_lt store s hnext] at hfe ⊢
  refine ⟨rfl, ?_⟩
  match bits with
  | [] =>
      exact absurd hfe (by simp [first_eligible, first_eligible_go])
  | b :: bs =>
      simp only [poll_buzzers, hcp, Option.isSome_none, Bool.false_eq_true,
        if_false, List.isEmpty_cons, hfe]
      simp only [grant_floor]
      have hcond :
          ¬(((skip_blank s.questions ((s.current_q_index + 1).toNat) : Int)
              = -1) ∨
            (((List.replicate num_players true).all fun b => !b) = true)) := by
        rintro (h1 | h2)
        · omega
        · revert h2; decide
      rw [if_neg hcond]

theorem C6_blank_options_no_manual_mode_witness :
    (poll_buzzers none (.bits [false, true, false, false])
        (next_question none
          { base_state with questions := [q_blank_options] })).current_player
      = some 1 :=
  (C6_blank_options_no_manual_mode none
    { base_state with questions := [q_blank_options] }
    [false, true, false, false] 1 (by decide) (by decide) rfl (by decide)).2

/-- C7 counterexample: when the last eligible contestant (player 3, with
0–2 already locked out) answers wrong, the code does not wait for any
advance command: the same `player_answer` call already moves the session to
the next question (`current_q_index` goes from 0 to 1) — there is no
`advance()` operation in the program. -/
theorem C7_counterexample :
    (player_answer none 1 s_exhaust).current_q_index = 1 ∧
    s_exhaust.current_q_index = 0 := by decide

/-- C7 (amended): when the floor holder answers wrong and thereby empties
the eligible set, and a further (non-blank) question remains, the round
auto-resolves within the same submission: every score is unchanged (no
points awarded), the floor is released, all lockouts are cleared, the
wrong-answer set is emptied, and the session moves immediately to the next
question — not on a separate advance command, which does not exist. -/
theorem C7_exhausted_round_auto_advance (store : Option (List Question))
    (s : GameState) (c idx : Nat)
    (hc : s.current_player = some c)
    (hwrong : idx ≠ (s.questions.getD s.current_q_index.toNat default).correct)
    (hall : ((s.active_players.set c false).all (fun a => !a)) = true)
    (hnext : skip_blank s.questions ((s.current_q_index + 1).toNat) <
      s.questions.length) :
    (player_answer store idx s).scores = s.scores ∧
    (player_answer store idx s).current_player = none ∧
    (player_answer store idx s).active_players =
      List.replicate num_players true ∧
    (player_answer store idx s).wrong_players = [] ∧
    (player_answer store idx s).current_q_index =
      (skip_blank s.questions ((s.current_q_index + 1).toNat) : Int) := by
  have hni := next_question_of_lt store
    (reset_round_visuals
      { s with
        wrong_players := s.wrong_players.insert c,
        active_players := s.active_players.set c false,
        current_player := none,
        buttons_enabled := List.replicate num_players false }) hnext
  simp only [player_answer, hc, if_neg hwrong, if_pos hall, hni]
  exact ⟨rfl, rfl, rfl, rfl, rfl⟩

theorem C7_exhausted_round_auto_advance_witness :
    (player_answer none 1 s_exhaust).scores = s_exhaust.scores ∧
    (player_answer none 1 s_exhaust).current_q_index = 1 := by
  have h := C7_exhausted_round_auto_advance none s_exhaust 3 1 rfl
    (by decide) (by decide) (by decide)
  exact ⟨h.1, by rw [h.2.2.2.2]; decide⟩

/-- C9: loading the question bank never fails.  An unreadable/non-list
store, or a stored list shorter than 13 records, yields the generated
default bank — exactly 13 records, each with 4 answer strings and a correct
index in 0..3 — which is also written back to the store; a stored list of
length at least 13 is returned unchanged with no write-back. -/
theorem C9_load_questions_total (store : Option (List Question)) :
    ((store = none ∨ ∃ l, store = some l ∧ l.length < 13) →
      (load_questions store = (default_questions, true) ∧
        (load_questions store).1.length = 13 ∧
        ∀ q ∈ (load_questions store).1,
          q.answers.length = 4 ∧ q.correct ≤ 3)) ∧
    (∀ l, store = some l → 13 ≤ l.length →
      load_questions store = (l, false)) := by
  constructor
  · rintro (rfl | ⟨l, rfl, hl⟩)
    · exact ⟨rfl, by decide, by decide⟩
    · simp only [load_questions]
      rw [if_pos hl]
      exact ⟨rfl, by decide, by decide⟩
  · rintro l rfl hl
    simp only [load_questions]
    rw [if_neg (by omega)]

theorem C9_load_questions_total_witness :
    load_questions (some []) = (default_questions, true) ∧
    load_questions (some (List.replicate 13 q_live)) =
      (List.replicate 13 q_live, false) :=
  ⟨((C9_load_questions_total (some [])).1 (Or.inr ⟨[], rfl, by decide⟩)).1,
   (C9_load_questions_total (some (List.replicate 13 q_live))).2
     (List.replicate 13 q_live) rfl (by decide)⟩

/-- C10: pressing Enter/Return with no game-over overlay visible releases
the floor, disables the answer buttons, clears every lockout and empties
the wrong-answer set — previously locked-out contestants regain buzz
eligibility — while every other field, in particular `scores`,
`current_q_index` and the question snapshot, is untouched. -/
theorem C10_enter_resets_round (store : Option (List Question))
    (s : GameState) (hov : s.overlay_visible = false) :
    keyPressEvent store .enter s =
      { s with
        current_player := none,
        buttons_enabled := List.replicate num_players false,
        active_players := List.replicate num_players true,
        wrong_players := [] } := by
  simp only [keyPressEvent, hov, Bool.false_eq_true, if_false,
    reset_round_visuals]

theorem C10_enter_resets_round_witness :
    keyPressEvent none .enter
        { base_state with
          current_player := some 2,
          active_players := [true, false, true, true],
          wrong_players := [1],
          buttons_enabled := [true, true, true, true],
          scores := [50, 0, 0, 100],
          current_q_index := 0 }
      = { base_state with
          current_player := none,
          active_players := [true, true, true, true],
          wrong_players := [],
          buttons_enabled := [false, false, false, false],
          scores := [50, 0, 0, 100],
          current_q_index := 0 } := by
  rw [C10_enter_resets_round none _ rfl]
  decide
